import Mathlib

/-!
Verification development for the buffered multi-transport client connection
(`bufferev.c`).  The C code is shallowly embedded: each C function becomes a
Lean function on an explicit connection-state record, with the operating
system's nondeterminism (socket creation results, `send`/`recv` results,
pending-error queries) passed in as explicit oracle parameters.  Reactor
callbacks (`on_connect`, `on_connect_timeout`, `on_read`) become state
transformers, and reactor scheduling becomes a step relation.
-/

namespace Mettle

/-! ## Protocol registry (`network_proto_to_str` / `network_str_to_proto`) -/

/-- The `enum network_proto` variants referenced by `bufferev.c`
(`network_proto_udp`, `network_proto_tcp`, `network_proto_tls`). -/
inductive NetworkProto
  | udp
  | tcp
  | tls
  deriving DecidableEq, BEq, Repr

/-- The static `proto_list` table exactly as written in the source: note the
third entry pairs the string "tls" with `network_proto_tcp`. -/
def proto_list : List (NetworkProto × String) :=
  [(NetworkProto.udp, "udp"), (NetworkProto.tcp, "tcp"), (NetworkProto.tcp, "tls")]

/-- ASCII lower-casing of one character. -/
def charLower (c : Char) : Char :=
  if 'A' ≤ c ∧ c ≤ 'Z' then Char.ofNat (c.toNat + 32) else c

/-- `strcasecmp(a, b) == 0`: ASCII case-insensitive string equality. -/
def strcaseeq (a b : String) : Bool :=
  a.data.map charLower == b.data.map charLower

/-- `network_proto_to_str`: first table entry whose proto field matches,
else "unknown". -/
def network_proto_to_str (proto : NetworkProto) : String :=
  match proto_list.find? (fun ent => ent.1 == proto) with
  | some ent => ent.2
  | none => "unknown"

/-- `network_str_to_proto`: first table entry whose string matches
case-insensitively, else `network_proto_tcp`. -/
def network_str_to_proto (proto : String) : NetworkProto :=
  match proto_list.find? (fun ent => strcaseeq ent.2 proto) with
  | some ent => ent.1
  | none => NetworkProto.tcp

/-! ## Buffer queue collaborator

`buffer_queue.h` is not part of this repository snapshot; the queue is an
external collaborator.  Its contract is modelled from the spec. -/

/-- Modelled from the spec: `buffer_queue_add` appends the bytes to the FIFO
queue; the spec's queue contract is `append(bytes)` and Scenario D states a
Tls write of 100 bytes returns 100, so the append reports the number of bytes
enqueued. -/
def buffer_queue_add (q : List Nat) (buf : List Nat) : List Nat × Nat :=
  (q ++ buf, buf.length)

/-- Modelled from the spec: `buffer_queue_len` returns the queue length. -/
def buffer_queue_len (q : List Nat) : Nat :=
  q.length

/-- Modelled from the spec: `buffer_queue_copy` returns up to `buflen` front
bytes without removing them. -/
def buffer_queue_copy (q : List Nat) (buflen : Nat) : List Nat :=
  q.take buflen

/-- Modelled from the spec: `buffer_queue_remove` removes and returns up to
`buflen` front bytes. -/
def buffer_queue_remove (q : List Nat) (buflen : Nat) : List Nat × List Nat :=
  (q.take buflen, q.drop buflen)

/-! ## Connection state -/

/-- Event flag sets delivered through `event_cb`.  Modelled from the spec's
callback ABI: a combinable bitmask over {Connected, Error, Eof, Timeout}
(`BEV_CONNECTED`, `BEV_ERROR`, `BEV_EOF`, `BEV_TIMEOUT`). -/
structure EvFlags where
  connected : Bool
  error : Bool
  eof : Bool
  timeout : Bool
  deriving DecidableEq, Repr

def evConnected : EvFlags := ⟨true, false, false, false⟩
def evError : EvFlags := ⟨false, true, false, false⟩
def evEof : EvFlags := ⟨false, false, true, false⟩
/-- `BEV_ERROR | BEV_TIMEOUT`. -/
def evErrTimeout : EvFlags := ⟨false, true, false, true⟩

/-- Which callback `data_ev` was last initialized with: `on_connect`
(registered for `EV_WRITE`) or `on_read` (registered for `EV_READ`). -/
inductive WatchKind
  | write
  | read
  deriving DecidableEq, Repr

/-- The `struct bufferev` state, plus observation ghosts.

Fields mirroring the C struct: `sock`, `connected`, `proto`, the
`connect_timer` (armed or not), the `data_ev` watch (active or not, and which
callback it carries), `rx_queue`/`tx_queue` contents, and whether `read_cb` /
`event_cb` are non-null (`write_cb` and `cb_arg` are never read by the state
machine and are omitted).

Ghost observation fields (never read by the embedded code): `rxFreeCount` /
`txFreeCount` count `buffer_queue_free` calls per queue, `freed` records that
`free(be)` ran, `events` records each `event_cb` invocation in order,
`readCbCalls` counts `read_cb` invocations, `readCbSnapshots` records the
`rx_queue` contents at the moment of each `read_cb` invocation, and
`closedFds` records every descriptor passed to `close`. -/
structure Bufferev where
  sock : Int
  connected : Nat
  proto : NetworkProto
  timerArmed : Bool
  watchActive : Bool
  watchKind : WatchKind
  rxQueue : List Nat
  txQueue : List Nat
  readCbSet : Bool
  eventCbSet : Bool
  rxFreeCount : Nat
  txFreeCount : Nat
  freed : Bool
  events : List EvFlags
  readCbCalls : Nat
  readCbSnapshots : List (List Nat)
  closedFds : List Int
  deriving DecidableEq, Repr

/-- `if (be->event_cb) be->event_cb(be, flags, be->cb_arg);` -/
def deliverEvent (be : Bufferev) (f : EvFlags) : Bufferev :=
  if be.eventCbSet then { be with events := be.events ++ [f] } else be

/-- `bufferev_new` (successful allocation path): `calloc` zero-initializes the
struct, so `sock = 0` (not the `-1` absent sentinel) and `proto` is the first
enumerator; both queues are freshly allocated and empty. -/
def bufferev_new : Bufferev where
  sock := 0
  connected := 0
  proto := NetworkProto.udp
  timerArmed := false
  watchActive := false
  watchKind := WatchKind.write
  rxQueue := []
  txQueue := []
  readCbSet := false
  eventCbSet := false
  rxFreeCount := 0
  txFreeCount := 0
  freed := false
  events := []
  readCbCalls := 0
  readCbSnapshots := []
  closedFds := []

/-- `bufferev_setcbs`: installs the callback set; the model tracks whether
`read_cb` and `event_cb` are non-null (`write_cb`/`cb_arg` are unobservable
here since `write_cb` is never invoked). -/
def bufferev_setcbs (be : Bufferev) (readCb eventCb : Bool) : Bufferev :=
  { be with readCbSet := readCb, eventCbSet := eventCb }

/-- `bufferev_bytes_available`. -/
def bufferev_bytes_available (be : Bufferev) : Nat :=
  buffer_queue_len be.rxQueue

/-- `bufferev_peek`. -/
def bufferev_peek (be : Bufferev) (buflen : Nat) : List Nat :=
  buffer_queue_copy be.rxQueue buflen

/-- `bufferev_read`: returns the removed bytes and the updated state. -/
def bufferev_read (be : Bufferev) (buflen : Nat) : List Nat × Bufferev :=
  let r := buffer_queue_remove be.rxQueue buflen
  (r.1, { be with rxQueue := r.2 })

/-- `close_sock`: closes the descriptor only when `sock >= 0`, then marks it
absent with `-1`. -/
def close_sock (be : Bufferev) : Bufferev :=
  if 0 ≤ be.sock then
    { be with closedFds := be.closedFds ++ [be.sock], sock := -1 }
  else be

/-- `bufferev_free` (on a non-NULL object): stops the `data_ev` watch, frees
both queues, closes the socket via `close_sock`, and frees the object.  The C
body contains no `ev_timer_stop` call, so `connect_timer` is untouched. -/
def bufferev_free (be : Bufferev) : Bufferev :=
  let be := { be with watchActive := false }
  let be := { be with rxFreeCount := be.rxFreeCount + 1 }
  let be := { be with txFreeCount := be.txFreeCount + 1 }
  let be := close_sock be
  { be with freed := true }

/-! ## Write path -/

/-- The `errno` classes distinguished by `bufferev_write`'s Tcp loop. -/
inductive ErrnoK
  | eagain
  | eintr
  | hard
  deriving DecidableEq, Repr

/-- One result of a `send` call: `ok n` is a return of `n ≥ 0` bytes,
`err e` is a return of `-1` with `errno` class `e`. -/
inductive SendRes
  | ok (n : Nat)
  | err (e : ErrnoK)
  deriving DecidableEq, Repr

/-- The Tcp branch of `bufferev_write`:
`do { rc = send(sock, buf + off, buflen - off, 0); if (rc > 0) ... } while
(rc > 0 || (rc < 0 && (errno == EAGAIN || errno == EINTR)));
return sent_bytes;`.  `off` and `sent_bytes` accumulate identically, so one
accumulator is carried.  The oracle list supplies successive `send` results;
`none` means the oracle was exhausted while the loop would still continue. -/
def tcpSendLoop (buflen : Nat) : List SendRes → Nat → Option Nat
  | [], _ => none
  | SendRes.ok n :: rs, off =>
      if 0 < n then tcpSendLoop buflen rs (off + n) else some off
  | SendRes.err e :: rs, off =>
      match e with
      | ErrnoK.eagain => tcpSendLoop buflen rs off
      | ErrnoK.eintr => tcpSendLoop buflen rs off
      | ErrnoK.hard => some off

/-- An oracle is a valid model of `send` on this payload when every successful
result returns at most the number of bytes requested at that point
(`buflen - off`), and a zero-byte success happens only for a zero-length
request (`off = buflen`). -/
def validSends (buflen : Nat) : Nat → List SendRes → Bool
  | _, [] => true
  | off, SendRes.ok n :: rs =>
      decide (n ≤ buflen - off) && (decide (0 < n) || decide (off = buflen))
        && validSends buflen (off + n) rs
  | off, SendRes.err _ :: rs => validSends buflen off rs

/-- Whether the Tcp loop's exit, if any, is caused by a hard `send` error
(return `< 0` with `errno` not `EAGAIN`/`EINTR`).  The control path of the
loop depends only on the result sequence, not on the offset. -/
def exitsHard : List SendRes → Bool
  | [] => false
  | SendRes.ok n :: rs => if 0 < n then exitsHard rs else false
  | SendRes.err ErrnoK.eagain :: rs => exitsHard rs
  | SendRes.err ErrnoK.eintr :: rs => exitsHard rs
  | SendRes.err ErrnoK.hard :: _ => true

/-- `bufferev_write`: dispatches on the protocol.  Udp performs one send
(first oracle result, `-1` on error); Tcp runs the retry loop; Tls appends to
`tx_queue` and returns `buffer_queue_add`'s result.  The second component is
`none` only when the Tcp loop's oracle is exhausted (the C loop would still
be running). -/
def bufferev_write (be : Bufferev) (buf : List Nat) (sends : List SendRes) :
    Bufferev × Option Int :=
  match be.proto with
  | NetworkProto.udp =>
      match sends with
      | SendRes.ok n :: _ => (be, some (Int.ofNat n))
      | SendRes.err _ :: _ => (be, some (-1))
      | [] => (be, none)
  | NetworkProto.tcp =>
      (be, (tcpSendLoop buf.length sends 0).map Int.ofNat)
  | NetworkProto.tls =>
      let r := buffer_queue_add be.txQueue buf
      ({ be with txQueue := r.1 }, some (Int.ofNat r.2))

/-! ## Read path -/

/-- The body of `on_read`'s receive loop.  Each element of `chunks` is the
byte content of one `recv` result with `rc > 0` (so each chunk is nonempty
and at most 4096 bytes, the scratch buffer size); the loop then ends on the
first `rc ≤ 0` result.  Per iteration the chunk is appended to `rx_queue`
first and `read_cb` is invoked afterwards (if non-null); the ghost snapshot
records `rx_queue` as the callback observes it. -/
def on_read_loop (be : Bufferev) : List (List Nat) → Bufferev
  | [] => be
  | c :: cs =>
      let be1 := { be with rxQueue := (buffer_queue_add be.rxQueue c).1 }
      let be2 :=
        if be1.readCbSet then
          { be1 with
            readCbCalls := be1.readCbCalls + 1,
            readCbSnapshots := be1.readCbSnapshots ++ [be1.rxQueue] }
        else be1
      on_read_loop be2 cs

/-- `on_read`: drains `recv` into `rx_queue` chunk by chunk, then, when the
total number of bytes received this invocation is `≤ 0`, stops the read watch
and delivers `BEV_EOF`. -/
def on_read (be : Bufferev) (chunks : List (List Nat)) : Bufferev :=
  let bytesRead := (chunks.map List.length).sum
  let be1 := on_read_loop be chunks
  if bytesRead = 0 then
    deliverEvent { be1 with watchActive := false } evEof
  else be1

/-! ## Connect path -/

/-- `on_connect_timeout`: always stops the timer; if the connection is not yet
connected it closes the socket, stops the watch, and delivers
`BEV_ERROR | BEV_TIMEOUT`. -/
def on_connect_timeout (be : Bufferev) : Bufferev :=
  let be := { be with timerArmed := false }
  if be.connected = 0 then
    let be := close_sock be
    let be := { be with watchActive := false }
    deliverEvent be evErrTimeout
  else be

/-- `on_connect` (writable-readiness during a connect attempt): stops the
watch and the timer, queries `SO_ERROR` (the oracle `sockErr`); nonzero
delivers `BEV_ERROR` and returns (socket left open, `connected` left 0);
zero delivers `BEV_CONNECTED`, re-registers the watch for reads, and sets
`connected = 1`. -/
def on_connect (be : Bufferev) (sockErr : Int) : Bufferev :=
  let be := { be with watchActive := false, timerArmed := false }
  if sockErr ≠ 0 then
    deliverEvent be evError
  else
    let be := deliverEvent be evConnected
    { be with watchKind := WatchKind.read, watchActive := true, connected := 1 }

/-- `bufferev_connect_addrinfo`.  Oracle parameters: `fd` is the `socket()`
result, `isUdp` is `dst->ai_protocol == IPPROTO_UDP`, `connectOk` is
`connect() == 0`, and `einprogress` is `errno == EINPROGRESS` on a failed
connect.  Binding to `src` has no observable effect in this model (its result
is ignored by the C code). -/
def bufferev_connect_addrinfo (be : Bufferev) (fd : Int) (isUdp : Bool)
    (connectOk einprogress : Bool) : Bufferev × Int :=
  let be := { be with sock := fd }
  if be.sock < 0 then
    (deliverEvent be evError, -1)
  else
    let be := { be with proto := if isUdp then NetworkProto.udp else NetworkProto.tcp }
    if connectOk || einprogress then
      ({ be with watchKind := WatchKind.write, watchActive := true, timerArmed := true }, 0)
    else
      (deliverEvent (close_sock be) evError, -1)

/-- `bufferev_connect_tcp_sock`: adopts an already-connected descriptor,
fixes the protocol to Tcp, registers the read watch and synchronously
delivers `BEV_CONNECTED`; no timer is armed (and `connected` is not set). -/
def bufferev_connect_tcp_sock (be : Bufferev) (fd : Int) : Bufferev × Int :=
  let be := { be with sock := fd, proto := NetworkProto.tcp,
                      watchKind := WatchKind.read, watchActive := true }
  (deliverEvent be evConnected, 0)

/-! ## Reactor scheduling

The reactor delivers a callback only while the corresponding watcher is
registered: `ev_io_stop` / `ev_timer_stop` clear any pending delivery, so a
stopped watcher never fires. -/

/-- One reactor delivery into the connection state machine.  `connect_ready`
fires `on_connect` while `data_ev` is registered for writes, `timer_fire`
fires `on_connect_timeout` while the timer is armed, `read_ready` fires
`on_read` while `data_ev` is registered for reads (each delivered chunk being
a `recv` result with `0 < rc ≤ 4096`). -/
inductive Step : Bufferev → Bufferev → Prop
  | connect_ready (s : Bufferev) (sockErr : Int)
      (hw : s.watchActive = true) (hk : s.watchKind = WatchKind.write) :
      Step s (on_connect s sockErr)
  | timer_fire (s : Bufferev) (ht : s.timerArmed = true) :
      Step s (on_connect_timeout s)
  | read_ready (s : Bufferev) (chunks : List (List Nat))
      (hw : s.watchActive = true) (hk : s.watchKind = WatchKind.read)
      (hc : ∀ c ∈ chunks, c ≠ [] ∧ c.length ≤ 4096) :
      Step s (on_read s chunks)

/-- Reactor reachability: zero or more deliveries. -/
def Reach : Bufferev → Bufferev → Prop :=
  Relation.ReflTransGen Step

/-- The state right after `bufferev_connect_addrinfo` succeeds (returns 0):
write watch registered with `on_connect`, timer armed, not yet connected, no
event delivered yet for this attempt, `event_cb` installed, descriptor held. -/
def Pending (s : Bufferev) : Prop :=
  s.watchActive = true ∧ s.watchKind = WatchKind.write ∧ s.timerArmed = true ∧
  s.connected = 0 ∧ s.events = [] ∧ s.eventCbSet = true ∧ 0 ≤ s.sock

/-- Events carrying a terminal flag (Error, Eof or Timeout). -/
def hasTerminal (l : List EvFlags) : Bool :=
  l.any (fun e => e.error || e.eof || e.timeout)

/-- Events carrying the Connected flag. -/
def hasConnectedEv (l : List EvFlags) : Bool :=
  l.any (fun e => e.connected)

/-- The spec's abstract connection status. -/
inductive Status
  | new
  | connecting
  | connected
  | closed
  deriving DecidableEq, Repr

/-- Modelled from the spec: the C struct has no status field; the spec's
`status` is New before any connect call, Connecting while an async attempt is
outstanding (timer armed), Connected once the attempt succeeded, and Closed
once a terminal Error/Eof/Timeout event has been delivered. -/
def statusOf (s : Bufferev) : Status :=
  if hasTerminal s.events then Status.closed
  else if s.connected = 1 ∨ hasConnectedEv s.events then Status.connected
  else if s.timerArmed then Status.connecting
  else Status.new

/-- The code's own openness convention: `close_sock` treats `sock >= 0` as an
open descriptor to be closed. -/
def sockOpen (be : Bufferev) : Bool :=
  decide (0 ≤ be.sock)

/-- The events that resolve a connect attempt: those carrying a Connected,
Error or Timeout flag. -/
def attemptEvents (l : List EvFlags) : List EvFlags :=
  l.filter (fun e => e.connected || e.error || e.timeout)

/-- A concrete connection: freshly constructed, callbacks installed, and an
async connect issued that returned descriptor 7 and `EINPROGRESS` (a Tcp
attempt now pending). -/
def pend0 : Bufferev :=
  (bufferev_connect_addrinfo (bufferev_setcbs bufferev_new true true) 7 false false true).1

/-- `pend0` after writable-readiness with pending socket error 111
(`ECONNREFUSED`): the attempt resolved as an asynchronous connect error. -/
def errd0 : Bufferev :=
  on_connect pend0 111

/-! ## Address introspection (`parse_sockaddr` and the endpoint getters) -/

/-- A filled-in `struct sockaddr_storage`: the family tag plus, for the two
internet families, the port (host byte order) and the address bytes (4 for
IPv4, 16 for IPv6). -/
inductive SockaddrSt
  | v4 (port : Nat) (addr : List Nat)
  | v6 (port : Nat) (addr : List Nat)
  | other (family : Nat)
  deriving DecidableEq, Repr

/-- `inet_ntop(AF_INET, ...)`: dotted-quad decimal presentation of 4 bytes. -/
def ipv4String (a b c d : Nat) : String :=
  toString a ++ "." ++ toString b ++ "." ++ toString c ++ "." ++ toString d

/-- `inet_ntop(AF_INET6, ...)` is a libc collaborator; the model renders the
16 address bytes byte-by-byte (which bytes are rendered is what matters
here, not the RFC 5952 text form). -/
def ipv6String (bs : List Nat) : String :=
  String.intercalate ":" (bs.map toString)

/-- `ntohs` applied to the two bytes stored at the port offset: network byte
order, high byte first. -/
def ntohs2 (hi lo : Nat) : Nat :=
  hi * 256 + lo

/-- `parse_sockaddr` as written in the source.  The parameter `addr` is a
pointer to a `sockaddr_storage`; the family test correctly dereferences it
(`addr->ss_family`), but both casts then take `&addr` — the address of the
pointer variable itself — so the port and address bytes are decoded from the
stack memory holding the pointer, not from the sockaddr.  `stack` models the
bytes of memory starting at `&addr` (the pointer's own 8 bytes first):
`sin_port` sits at offset 2, `sin_addr` at offset 4, `sin6_port` at offset
2, `sin6_addr` at offset 8.  For an unhandled family the zero-initialized
`host` buffer is returned as the empty string and the port out-parameter is
never written (`none`). -/
def parse_sockaddr (addr : SockaddrSt) (stack : List Nat) : String × Option Nat :=
  match addr with
  | SockaddrSt.v4 _ _ =>
      (ipv4String (stack.getD 4 0) (stack.getD 5 0) (stack.getD 6 0) (stack.getD 7 0),
        some (ntohs2 (stack.getD 2 0) (stack.getD 3 0)))
  | SockaddrSt.v6 _ _ =>
      (ipv6String ((stack.drop 8).take 16),
        some (ntohs2 (stack.getD 2 0) (stack.getD 3 0)))
  | SockaddrSt.other _ => ("", none)

/-- Modelled from the spec: the intended decoding of `local_endpoint()` /
`peer_endpoint()` — "resolve the local or remote address into a
human-readable host string (IPv4 or IPv6 presentation form) plus a numeric
port", i.e. host and port taken from the sockaddr itself. -/
def parse_sockaddr_spec (addr : SockaddrSt) : String × Option Nat :=
  match addr with
  | SockaddrSt.v4 port ad =>
      (ipv4String (ad.getD 0 0) (ad.getD 1 0) (ad.getD 2 0) (ad.getD 3 0), some port)
  | SockaddrSt.v6 port ad => (ipv6String ad, some port)
  | SockaddrSt.other _ => ("", none)

/-- `bufferev_get_local_addr`: the `getsockname` result is the oracle; on
query failure the function returns NULL (`none`), otherwise it hands the
address to `parse_sockaddr`. -/
def bufferev_get_local_addr (queryResult : Option SockaddrSt) (stack : List Nat) :
    Option (String × Option Nat) :=
  match queryResult with
  | none => none
  | some a => some (parse_sockaddr a stack)

/-- `bufferev_get_peer_addr`: same shape with `getpeername` as the oracle. -/
def bufferev_get_peer_addr (queryResult : Option SockaddrSt) (stack : List Nat) :
    Option (String × Option Nat) :=
  match queryResult with
  | none => none
  | some a => some (parse_sockaddr a stack)

/-- A concrete local endpoint 127.0.0.1:8080 as `getsockname` would fill it
in. -/
def addr9 : SockaddrSt :=
  SockaddrSt.v4 8080 [127, 0, 0, 1]

/-- The stack bytes at `&addr` for a pointer value 0x00007ffc9a3b5c70
(little-endian), followed by further indeterminate stack bytes. -/
def stack9 : List Nat :=
  [112, 92, 59, 154, 252, 127, 0, 0, 0, 0, 0, 0, 0, 0, 0, 0]

/-- Inductive invariant of the states reachable from a pending connect
attempt issued on `s0`: at most one attempt-resolving event has been
delivered; if none has, the attempt is still fully pending; the timer and
the write watch are live only before resolution; `event_cb` stays installed;
no Timeout-flagged event ever follows a Connected-flagged one; the descriptor
is unchanged unless the status has become Closed; and only the four concrete
flag sets ever get delivered. -/
def AttemptInv (s0 s : Bufferev) : Prop :=
  (attemptEvents s.events).length ≤ 1 ∧
  (attemptEvents s.events = [] →
    s.watchActive = true ∧ s.watchKind = WatchKind.write ∧
    s.timerArmed = true ∧ s.connected = 0) ∧
  (s.timerArmed = true → attemptEvents s.events = []) ∧
  (s.watchActive = true ∧ s.watchKind = WatchKind.write → attemptEvents s.events = []) ∧
  s.eventCbSet = true ∧
  List.Pairwise (fun a b => a.connected = true → b.timeout = false) s.events ∧
  (s.sock = s0.sock ∨ statusOf s = Status.closed) ∧
  (∀ e ∈ s.events, e = evConnected ∨ e = evError ∨ e = evErrTimeout ∨ e = evEof)

end Mettle

namespace Mettle

/-! ## Supporting lemmas -/

theorem attemptEvents_append (l1 l2 : List EvFlags) :
    attemptEvents (l1 ++ l2) = attemptEvents l1 ++ attemptEvents l2 := by
  simp [attemptEvents, List.filter_append]

theorem attemptEvents_evError : attemptEvents [evError] = [evError] := by decide

theorem attemptEvents_evConnected : attemptEvents [evConnected] = [evConnected] := by decide

theorem attemptEvents_evErrTimeout : attemptEvents [evErrTimeout] = [evErrTimeout] := by decide

theorem attemptEvents_evEof : attemptEvents [evEof] = [] := by decide

theorem connected_false_of_attemptEvents_nil {l : List EvFlags}
    (h : attemptEvents l = []) : ∀ e ∈ l, e.connected = false := by
  intro e he
  have hp := List.filter_eq_nil_iff.mp h e he
  simp only [Bool.or_eq_true, not_or, Bool.not_eq_true] at hp
  exact hp.1.1

theorem statusOf_closed_of_terminal {s : Bufferev} (h : hasTerminal s.events = true) :
    statusOf s = Status.closed := by
  simp [statusOf, h]

theorem hasTerminal_of_closed {s : Bufferev} (h : statusOf s = Status.closed) :
    hasTerminal s.events = true := by
  by_contra hn
  rw [Bool.not_eq_true] at hn
  rw [statusOf] at h
  rw [hn] at h
  split_ifs at h <;> simp_all

/-- Fields of the connection not touched by the `on_read` receive loop, and
the effect of the loop on `rx_queue`. -/
theorem on_read_loop_frame (chunks : List (List Nat)) :
    ∀ s : Bufferev,
    (on_read_loop s chunks).events = s.events ∧
    (on_read_loop s chunks).watchActive = s.watchActive ∧
    (on_read_loop s chunks).watchKind = s.watchKind ∧
    (on_read_loop s chunks).timerArmed = s.timerArmed ∧
    (on_read_loop s chunks).sock = s.sock ∧
    (on_read_loop s chunks).connected = s.connected ∧
    (on_read_loop s chunks).eventCbSet = s.eventCbSet ∧
    (on_read_loop s chunks).readCbSet = s.readCbSet ∧
    (on_read_loop s chunks).closedFds = s.closedFds ∧
    (on_read_loop s chunks).rxQueue = s.rxQueue ++ chunks.flatten := by
  induction chunks with
  | nil => intro s; simp [on_read_loop]
  | cons c cs ih =>
      intro s
      by_cases hr : s.readCbSet
      · have step : on_read_loop s (c :: cs) =
            on_read_loop { s with rxQueue := s.rxQueue ++ c,
                                  readCbCalls := s.readCbCalls + 1,
                                  readCbSnapshots := s.readCbSnapshots ++ [s.rxQueue ++ c] } cs := by
          simp [on_read_loop, buffer_queue_add, hr]
        rw [step]
        have := ih { s with rxQueue := s.rxQueue ++ c,
                            readCbCalls := s.readCbCalls + 1,
                            readCbSnapshots := s.readCbSnapshots ++ [s.rxQueue ++ c] }
        simpa [List.append_assoc] using this
      · have step : on_read_loop s (c :: cs) =
            on_read_loop { s with rxQueue := s.rxQueue ++ c } cs := by
          simp [on_read_loop, buffer_queue_add, hr]
        rw [step]
        have := ih { s with rxQueue := s.rxQueue ++ c }
        simpa [List.append_assoc] using this

/-- When `read_cb` is installed, the receive loop invokes it exactly once per
chunk, and the `rx_queue` snapshot it observes at the i-th invocation is the
original queue followed by the first i+1 chunks. -/
theorem on_read_loop_counts (chunks : List (List Nat)) :
    ∀ s : Bufferev, s.readCbSet = true →
    (on_read_loop s chunks).readCbCalls = s.readCbCalls + chunks.length ∧
    (on_read_loop s chunks).readCbSnapshots =
      s.readCbSnapshots ++ (List.range chunks.length).map
        (fun i => s.rxQueue ++ (chunks.take (i + 1)).flatten) := by
  induction chunks with
  | nil => intro s _; simp [on_read_loop]
  | cons c cs ih =>
      intro s hr
      have step : on_read_loop s (c :: cs) =
          on_read_loop { s with rxQueue := s.rxQueue ++ c,
                                readCbCalls := s.readCbCalls + 1,
                                readCbSnapshots := s.readCbSnapshots ++ [s.rxQueue ++ c] } cs := by
        simp [on_read_loop, buffer_queue_add, hr]
      rw [step]
      obtain ⟨ihc, ihs⟩ := ih { s with rxQueue := s.rxQueue ++ c, readCbCalls := s.readCbCalls + 1, readCbSnapshots := s.readCbSnapshots ++ [s.rxQueue ++ c] } hr
      constructor
      · rw [ihc]; simp [Nat.add_assoc, Nat.add_comm 1 cs.length]
      · rw [ihs]
        simp only [List.length_cons, List.range_succ_eq_map, List.map_cons, List.map_map,
          List.append_assoc, List.singleton_append, List.take_succ_cons, List.flatten_cons,
          List.take_zero, List.flatten_nil, List.append_nil]
        simp [Function.comp]

/-- The effect of one `on_read` invocation on the fields the connect-attempt
invariant tracks: the event trace at most gains one Eof event, everything
else relevant is unchanged. -/
theorem on_read_attempt_frame (s : Bufferev) (chunks : List (List Nat)) :
    ((on_read s chunks).events = s.events ∨
      (on_read s chunks).events = s.events ++ [evEof]) ∧
    (on_read s chunks).watchKind = s.watchKind ∧
    (on_read s chunks).timerArmed = s.timerArmed ∧
    (on_read s chunks).sock = s.sock ∧
    (on_read s chunks).connected = s.connected ∧
    (on_read s chunks).eventCbSet = s.eventCbSet := by
  obtain ⟨he, hw, hk, ht, hs, hc, hev, -, -, -⟩ := on_read_loop_frame chunks s
  rw [on_read]
  split_ifs with h0
  · rw [deliverEvent]
    split_ifs with hcb <;>
      simp_all
  · simp_all

theorem pending_attemptInv {s : Bufferev} (h : Pending s) : AttemptInv s s := by
  obtain ⟨h1, h2, h3, h4, h5, h6, h7⟩ := h
  refine ⟨?_, ?_, ?_, ?_, h6, ?_, Or.inl rfl, ?_⟩ <;>
    simp [attemptEvents, h5, h1, h2, h3, h4]

theorem statusOf_closed_mono {s t : Bufferev} (l : List EvFlags)
    (hl : t.events = s.events ++ l) (h : statusOf s = Status.closed) :
    statusOf t = Status.closed := by
  apply statusOf_closed_of_terminal
  have ht := hasTerminal_of_closed h
  rw [hasTerminal] at ht ⊢
  rw [hl, List.any_append, ht, Bool.true_or]

/-- One reactor delivery preserves the connect-attempt invariant. -/
theorem attemptInv_step {s0 s t : Bufferev} (inv : AttemptInv s0 s)
    (hst : Step s t) : AttemptInv s0 t := by
  obtain ⟨h1, h2, h3, h4, h5, h6, h7, h8⟩ := inv
  have hsock7 : ∀ u : Bufferev, u.sock = s.sock → (∃ l, u.events = s.events ++ l) →
      u.sock = s0.sock ∨ statusOf u = Status.closed := by
    rintro u hus ⟨l, hl⟩
    rcases h7 with h | h
    · exact Or.inl (hus.trans h)
    · exact Or.inr (statusOf_closed_mono l hl h)
  cases hst with
  | connect_ready sockErr hw hk =>
      have haes : attemptEvents s.events = [] := h4 ⟨hw, hk⟩
      by_cases he : sockErr ≠ 0
      · have heq : on_connect s sockErr =
            { s with watchActive := false, timerArmed := false,
                     events := s.events ++ [evError] } := by
          simp [on_connect, deliverEvent, he, h5]
        rw [heq]
        refine ⟨?_, ?_, ?_, ?_, h5, ?_, ?_, ?_⟩
        · simp [attemptEvents_append, haes, attemptEvents_evError]
        · intro hnil
          simp [attemptEvents_append, haes, attemptEvents_evError] at hnil
        · intro htm; exact absurd htm (by simp)
        · rintro ⟨ha, -⟩; exact absurd ha (by simp)
        · refine List.pairwise_append.mpr ⟨h6, List.pairwise_singleton _ _, ?_⟩
          intro a _ b hb
          simp only [List.mem_singleton] at hb
          subst hb
          intro _
          rfl
        · exact hsock7 _ rfl ⟨[evError], rfl⟩
        · intro e hee
          rcases List.mem_append.mp hee with hh | hh
          · exact h8 e hh
          · simp only [List.mem_singleton] at hh; subst hh; right; left; rfl
      · have heq : on_connect s sockErr =
            { s with watchActive := true, timerArmed := false,
                     watchKind := WatchKind.read, connected := 1,
                     events := s.events ++ [evConnected] } := by
          simp [on_connect, deliverEvent, he, h5]
        rw [heq]
        refine ⟨?_, ?_, ?_, ?_, h5, ?_, ?_, ?_⟩
        · simp [attemptEvents_append, haes, attemptEvents_evConnected]
        · intro hnil
          simp [attemptEvents_append, haes, attemptEvents_evConnected] at hnil
        · intro htm; exact absurd htm (by simp)
        · rintro ⟨-, hkk⟩; exact absurd hkk (by simp)
        · refine List.pairwise_append.mpr ⟨h6, List.pairwise_singleton _ _, ?_⟩
          intro a _ b hb
          simp only [List.mem_singleton] at hb
          subst hb
          intro _
          rfl
        · exact hsock7 _ rfl ⟨[evConnected], rfl⟩
        · intro e hee
          rcases List.mem_append.mp hee with hh | hh
          · exact h8 e hh
          · simp only [List.mem_singleton] at hh; subst hh; left; rfl
  | timer_fire ht =>
      have haes : attemptEvents s.events = [] := h3 ht
      have hnoc : ∀ e ∈ s.events, e.connected = false :=
        connected_false_of_attemptEvents_nil haes
      obtain ⟨-, -, -, hc0⟩ := h2 haes
      have hpair : List.Pairwise (fun a b => a.connected = true → b.timeout = false)
          (s.events ++ [evErrTimeout]) := by
        refine List.pairwise_append.mpr ⟨h6, List.pairwise_singleton _ _, ?_⟩
        intro a ha b hb
        simp only [List.mem_singleton] at hb
        subst hb
        intro hac
        rw [hnoc a ha] at hac
        exact absurd hac (by simp)
      have hallow : ∀ e ∈ s.events ++ [evErrTimeout],
          e = evConnected ∨ e = evError ∨ e = evErrTimeout ∨ e = evEof := by
        intro e hee
        rcases List.mem_append.mp hee with hh | hh
        · exact h8 e hh
        · simp only [List.mem_singleton] at hh; subst hh; right; right; left; rfl
      by_cases hs : 0 ≤ s.sock
      · have heq : on_connect_timeout s =
            { s with timerArmed := false, watchActive := false,
                     closedFds := s.closedFds ++ [s.sock], sock := -1,
                     events := s.events ++ [evErrTimeout] } := by
          simp [on_connect_timeout, close_sock, deliverEvent, hc0, h5, hs]
        rw [heq]
        refine ⟨?_, ?_, ?_, ?_, h5, hpair, ?_, hallow⟩
        · simp [attemptEvents_append, haes, attemptEvents_evErrTimeout]
        · intro hnil
          simp [attemptEvents_append, haes, attemptEvents_evErrTimeout] at hnil
        · intro htm; exact absurd htm (by simp)
        · rintro ⟨ha, -⟩; exact absurd ha (by simp)
        · exact Or.inr (statusOf_closed_of_terminal (by simp [hasTerminal, evErrTimeout]))
      · have heq : on_connect_timeout s =
            { s with timerArmed := false, watchActive := false,
                     events := s.events ++ [evErrTimeout] } := by
          simp [on_connect_timeout, close_sock, deliverEvent, hc0, h5, hs]
        rw [heq]
        refine ⟨?_, ?_, ?_, ?_, h5, hpair, ?_, hallow⟩
        · simp [attemptEvents_append, haes, attemptEvents_evErrTimeout]
        · intro hnil
          simp [attemptEvents_append, haes, attemptEvents_evErrTimeout] at hnil
        · intro htm; exact absurd htm (by simp)
        · rintro ⟨ha, -⟩; exact absurd ha (by simp)
        · exact Or.inr (statusOf_closed_of_terminal (by simp [hasTerminal, evErrTimeout]))
  | read_ready chunks hw hk hc =>
      obtain ⟨hev, hkk, htm, hsk, hcn, hecb⟩ := on_read_attempt_frame s chunks
      have haesne : attemptEvents s.events ≠ [] := by
        intro hnil
        have hkw := (h2 hnil).2.1
        rw [hk] at hkw
        exact absurd hkw (by simp)
      have haes' : attemptEvents (on_read s chunks).events = attemptEvents s.events := by
        rcases hev with h | h
        · rw [h]
        · rw [h, attemptEvents_append]
          simp [attemptEvents_evEof]
      refine ⟨?_, ?_, ?_, ?_, ?_, ?_, ?_, ?_⟩
      · rw [haes']; exact h1
      · intro hnil; rw [haes'] at hnil; exact absurd hnil haesne
      · intro htm'
        exfalso
        rw [htm] at htm'
        exact haesne (h3 htm')
      · rintro ⟨-, hk'⟩
        exfalso
        rw [hkk, hk] at hk'
        exact absurd hk' (by simp)
      · rw [hecb]; exact h5
      · rcases hev with h | h
        · rw [h]; exact h6
        · rw [h]
          refine List.pairwise_append.mpr ⟨h6, List.pairwise_singleton _ _, ?_⟩
          intro a _ b hb
          simp only [List.mem_singleton] at hb
          subst hb
          intro _
          rfl
      · rcases hev with h | h
        · exact hsock7 _ hsk ⟨[], by rw [h, List.append_nil]⟩
        · exact hsock7 _ hsk ⟨[evEof], h⟩
      · intro e hee
        rcases hev with h | h
        · rw [h] at hee; exact h8 e hee
        · rw [h] at hee
          rcases List.mem_append.mp hee with hh | hh
          · exact h8 e hh
          · simp only [List.mem_singleton] at hh; subst hh; right; right; right; rfl

/-- Every state the reactor can reach from a pending connect attempt
satisfies the attempt invariant. -/
theorem attemptInv_reach {s0 s : Bufferev} (h0 : Pending s0) (hr : Reach s0 s) :
    AttemptInv s0 s := by
  induction hr with
  | refl => exact pending_attemptInv h0
  | tail _ hstep ih => exact attemptInv_step ih hstep

/-! ## Claim theorems -/

/-- **C1** (code_bug evaluation).  The protocol registry's round-trip law
fails for Tls: the source's `proto_list` pairs the string "tls" with
`network_proto_tcp`, so `network_proto_to_str` falls through to "unknown" on
`network_proto_tls` and `network_str_to_proto` maps it (and "tls" itself)
back to Tcp.  The round trip holds only for Udp and Tcp. -/
theorem protoRoundtrip_fails_for_tls :
    network_proto_to_str NetworkProto.tls = "unknown" ∧
    network_str_to_proto (network_proto_to_str NetworkProto.tls) = NetworkProto.tcp ∧
    network_str_to_proto "tls" = NetworkProto.tcp ∧
    network_str_to_proto (network_proto_to_str NetworkProto.udp) = NetworkProto.udp ∧
    network_str_to_proto (network_proto_to_str NetworkProto.tcp) = NetworkProto.tcp := by
  decide

/-- **C3** (counterexample).  The claimed invariant "descriptor open iff
status ∈ {Connecting, Connected}" fails on the code.  `errd0` — reached from
the pending attempt `pend0` by a writable-readiness delivery whose `SO_ERROR`
query returned 111 (`ECONNREFUSED`) — has received a terminal Error event
(abstract status Closed) yet still holds descriptor 7, which was never
closed; and a freshly constructed connection already counts as open by the
code's own convention (`calloc` leaves `sock = 0` and `close_sock` treats
`sock >= 0` as open) while its status is still New. -/
theorem socketOpen_iff_status_counterexample :
    Pending pend0 ∧ Reach pend0 errd0 ∧
    ¬(sockOpen errd0 = true ↔
        (statusOf errd0 = Status.connecting ∨ statusOf errd0 = Status.connected)) ∧
    statusOf errd0 = Status.closed ∧ sockOpen errd0 = true ∧ errd0.sock = 7 ∧
    errd0.closedFds = [] ∧
    statusOf bufferev_new = Status.new ∧ sockOpen bufferev_new = true :=
  ⟨⟨rfl, rfl, rfl, rfl, rfl, rfl, by decide⟩,
   Relation.ReflTransGen.single (Step.connect_ready pend0 111 rfl rfl),
   by decide, by decide, by decide, by decide, by decide, by decide, by decide⟩

/-- **C3** (amended).  One direction of the claimed invariant does hold: in
every reactor-reachable state of a connect attempt, if the abstract status is
Connecting or Connected then the descriptor is open — indeed it is still the
descriptor the attempt was issued on.  The converse direction is refuted by
the counterexample above. -/
theorem socketOpen_while_connecting_or_connected {s0 s : Bufferev}
    (h0 : Pending s0) (hr : Reach s0 s)
    (hst : statusOf s = Status.connecting ∨ statusOf s = Status.connected) :
    sockOpen s = true ∧ s.sock = s0.sock := by
  obtain ⟨-, -, -, -, -, -, h7, -⟩ := attemptInv_reach h0 hr
  have hs : s.sock = s0.sock := by
    rcases h7 with h | h
    · exact h
    · rcases hst with hc | hc <;> rw [h] at hc <;> exact absurd hc (by simp)
  refine ⟨?_, hs⟩
  have h0s : (0 : Int) ≤ s0.sock := h0.2.2.2.2.2.2
  show decide (0 ≤ s.sock) = true
  rw [hs]
  exact decide_eq_true h0s

/-- **C3** (witness): the amended statement evaluated at the concrete pending
attempt `pend0` (status Connecting, descriptor 7 open). -/
theorem socketOpen_while_connecting_witness :
    sockOpen pend0 = true ∧ pend0.sock = pend0.sock :=
  @socketOpen_while_connecting_or_connected pend0 pend0
    ⟨rfl, rfl, rfl, rfl, rfl, rfl, by decide⟩ Relation.ReflTransGen.refl
    (Or.inl (by decide))

/-- **C4**.  Along every reactor schedule of a single connect attempt started
by a successful `bufferev_connect_addrinfo`, at most one attempt-resolving
event is ever delivered; once the attempt can no longer resolve (the timer is
disarmed and the write watch is gone), exactly one such event has been
delivered; every attempt event is Connected, Error, or Error|Timeout; and no
Timeout-flagged event is ever delivered after a Connected-flagged one. -/
theorem connectAttempt_resolves_exactly_once {s0 s : Bufferev}
    (h0 : Pending s0) (hr : Reach s0 s) :
    (attemptEvents s.events).length ≤ 1 ∧
    (s.timerArmed = false ∧ (s.watchActive = false ∨ s.watchKind = WatchKind.read) →
      (attemptEvents s.events).length = 1) ∧
    (∀ e ∈ attemptEvents s.events,
      e = evConnected ∨ e = evError ∨ e = evErrTimeout) ∧
    List.Pairwise (fun a b => a.connected = true → b.timeout = false) s.events := by
  obtain ⟨h1, h2, h3, h4, -, h6, -, h8⟩ := attemptInv_reach h0 hr
  refine ⟨h1, ?_, ?_, h6⟩
  · rintro ⟨ht, -⟩
    rcases Nat.lt_or_ge (attemptEvents s.events).length 1 with hl | hl
    · exfalso
      have hnil : attemptEvents s.events = [] := List.length_eq_zero.mp (by omega)
      have ht2 := (h2 hnil).2.2.1
      rw [ht2] at ht
      exact absurd ht (by simp)
    · omega
  · intro e he
    have hmem : e ∈ s.events := List.mem_of_mem_filter he
    rcases h8 e hmem with h | h | h | h
    · exact Or.inl h
    · exact Or.inr (Or.inl h)
    · exact Or.inr (Or.inr h)
    · exfalso
      subst h
      have hp := List.of_mem_filter he
      simp [evEof] at hp

/-- **C4** (witness): the resolution discipline evaluated at the concrete
pending attempt `pend0`. -/
theorem connectAttempt_resolves_exactly_once_witness :
    (attemptEvents pend0.events).length ≤ 1 ∧
    (pend0.timerArmed = false ∧
        (pend0.watchActive = false ∨ pend0.watchKind = WatchKind.read) →
      (attemptEvents pend0.events).length = 1) ∧
    (∀ e ∈ attemptEvents pend0.events,
      e = evConnected ∨ e = evError ∨ e = evErrTimeout) ∧
    List.Pairwise (fun a b => a.connected = true → b.timeout = false) pend0.events :=
  connectAttempt_resolves_exactly_once
    ⟨rfl, rfl, rfl, rfl, rfl, rfl, by decide⟩ Relation.ReflTransGen.refl

/-- **C2** (counterexample).  At the concrete pending connection `pend0`
(timer armed, queues allocated): one `bufferev_free` leaves the connect timer
armed, and a second `bufferev_free` frees the rx and tx queues a second time
— so teardown neither disarms the timer nor is idempotent, refuting the claim
as stated. -/
theorem bufferevFree_claim_counterexample :
    pend0.timerArmed = true ∧
    (bufferev_free pend0).timerArmed = true ∧
    (bufferev_free pend0).rxFreeCount = 1 ∧
    (bufferev_free (bufferev_free pend0)).rxFreeCount = 2 ∧
    (bufferev_free (bufferev_free pend0)).txFreeCount = 2 := by
  decide

/-- **C2** (amended).  `bufferev_free` unregisters the `data_ev` watch, frees
each queue exactly once per invocation, and closes the socket when it is
open; the socket close is guarded (`close_sock` sets the handle to -1), so a
second invocation closes nothing further — but the connect timer is left
armed, and a second invocation frees each queue a second time. -/
theorem bufferevFree_behavior (be : Bufferev) :
    (bufferev_free be).watchActive = false ∧
    (bufferev_free be).rxFreeCount = be.rxFreeCount + 1 ∧
    (bufferev_free be).txFreeCount = be.txFreeCount + 1 ∧
    (0 ≤ be.sock → (bufferev_free be).sock = -1) ∧
    (bufferev_free be).timerArmed = be.timerArmed ∧
    (0 ≤ be.sock → (bufferev_free be).closedFds = be.closedFds ++ [be.sock]) ∧
    (be.sock < 0 → (bufferev_free be).closedFds = be.closedFds) ∧
    (bufferev_free (bufferev_free be)).closedFds = (bufferev_free be).closedFds ∧
    (bufferev_free (bufferev_free be)).rxFreeCount = be.rxFreeCount + 2 ∧
    (bufferev_free (bufferev_free be)).txFreeCount = be.txFreeCount + 2 := by
  simp only [bufferev_free, close_sock]
  by_cases h : (0 : Int) ≤ be.sock <;> simp [h]

/-- **C2** (witness): the amended teardown behavior evaluated at the concrete
pending connection `pend0`. -/
theorem bufferevFree_behavior_witness :
    (bufferev_free pend0).watchActive = false ∧
    (bufferev_free pend0).rxFreeCount = pend0.rxFreeCount + 1 ∧
    (bufferev_free pend0).txFreeCount = pend0.txFreeCount + 1 ∧
    (0 ≤ pend0.sock → (bufferev_free pend0).sock = -1) ∧
    (bufferev_free pend0).timerArmed = pend0.timerArmed ∧
    (0 ≤ pend0.sock → (bufferev_free pend0).closedFds = pend0.closedFds ++ [pend0.sock]) ∧
    (pend0.sock < 0 → (bufferev_free pend0).closedFds = pend0.closedFds) ∧
    (bufferev_free (bufferev_free pend0)).closedFds = (bufferev_free pend0).closedFds ∧
    (bufferev_free (bufferev_free pend0)).rxFreeCount = pend0.rxFreeCount + 2 ∧
    (bufferev_free (bufferev_free pend0)).txFreeCount = pend0.txFreeCount + 2 :=
  bufferevFree_behavior pend0

/-- **C5**.  When the connect timer fires while the attempt is unresolved
(`connected = 0`) and `event_cb` is installed, `on_connect_timeout` disarms
the timer, closes the socket (recording the close, so the descriptor is not
leaked), unregisters the watch, and delivers exactly one
`BEV_ERROR | BEV_TIMEOUT` event. -/
theorem connectTimeout_resolves_attempt (s : Bufferev)
    (hc : s.connected = 0) (he : s.eventCbSet = true) (hs : 0 ≤ s.sock) :
    (on_connect_timeout s).timerArmed = false ∧
    (on_connect_timeout s).watchActive = false ∧
    (on_connect_timeout s).sock = -1 ∧
    (on_connect_timeout s).closedFds = s.closedFds ++ [s.sock] ∧
    (on_connect_timeout s).events = s.events ++ [evErrTimeout] := by
  simp [on_connect_timeout, close_sock, deliverEvent, hc, he, hs]

/-- **C5** (witness): the timeout resolution evaluated at the concrete
pending connection `pend0`. -/
theorem connectTimeout_resolves_attempt_witness :
    (on_connect_timeout pend0).timerArmed = false ∧
    (on_connect_timeout pend0).watchActive = false ∧
    (on_connect_timeout pend0).sock = -1 ∧
    (on_connect_timeout pend0).closedFds = pend0.closedFds ++ [pend0.sock] ∧
    (on_connect_timeout pend0).events = pend0.events ++ [evErrTimeout] :=
  connectTimeout_resolves_attempt pend0 (by decide) (by decide) (by decide)

/-- The Tcp send loop, on any valid `send` oracle that lets it exit, never
reports more than the payload length, and exits only with the full payload
sent or on a hard error. -/
theorem tcpSendLoop_spec (sends : List SendRes) :
    ∀ buflen off t : Nat, off ≤ buflen → validSends buflen off sends = true →
    tcpSendLoop buflen sends off = some t →
    off ≤ t ∧ t ≤ buflen ∧ (t = buflen ∨ exitsHard sends = true) := by
  induction sends with
  | nil =>
      intro buflen off t hob hv hloop
      simp [tcpSendLoop] at hloop
  | cons r rs ih =>
      intro buflen off t hob hv hloop
      cases r with
      | ok n =>
          simp only [validSends, Bool.and_eq_true, decide_eq_true_eq,
            Bool.or_eq_true] at hv
          obtain ⟨⟨hn1, hn2⟩, hv⟩ := hv
          by_cases hn : 0 < n
          · simp only [tcpSendLoop, if_pos hn] at hloop
            obtain ⟨ha, hb, hcc⟩ := ih buflen (off + n) t (by omega) hv hloop
            refine ⟨by omega, hb, ?_⟩
            rcases hcc with h | h
            · exact Or.inl h
            · right; simpa [exitsHard, hn] using h
          · simp only [tcpSendLoop, if_neg hn] at hloop
            have hoff : off = buflen := by
              rcases hn2 with h | h
              · exact absurd h hn
              · exact h
            obtain rfl : t = off := (Option.some_inj.mp hloop).symm
            exact ⟨le_refl _, by omega, Or.inl hoff⟩
      | err e =>
          cases e with
          | eagain =>
              simp only [validSends] at hv
              simp only [tcpSendLoop] at hloop
              obtain ⟨ha, hb, hcc⟩ := ih buflen off t hob hv hloop
              refine ⟨ha, hb, ?_⟩
              rcases hcc with h | h
              · exact Or.inl h
              · right; simpa [exitsHard] using h
          | eintr =>
              simp only [validSends] at hv
              simp only [tcpSendLoop] at hloop
              obtain ⟨ha, hb, hcc⟩ := ih buflen off t hob hv hloop
              refine ⟨ha, hb, ?_⟩
              rcases hcc with h | h
              · exact Or.inl h
              · right; simpa [exitsHard] using h
          | hard =>
              simp only [tcpSendLoop] at hloop
              obtain rfl : t = off := (Option.some_inj.mp hloop).symm
              exact ⟨le_refl _, hob, Or.inr (by simp [exitsHard])⟩

/-- **C6**.  On a Tcp-protocol connection, `bufferev_write` leaves the
connection state untouched and runs the accumulate-and-retry `send` loop:
would-block (`EAGAIN`) and interrupted (`EINTR`) results make it retry
without counting anything, successful partial sends accumulate, and whenever
the loop returns, the value returned is the accumulated byte count, which is
the full payload length unless the loop was stopped by a hard `send` error. -/
theorem tcpWrite_sends_fully_or_hard_error (be : Bufferev) (buf : List Nat)
    (sends : List SendRes) (t : Int) (hp : be.proto = NetworkProto.tcp)
    (hv : validSends buf.length 0 sends = true)
    (ht : (bufferev_write be buf sends).2 = some t) :
    (bufferev_write be buf sends).1 = be ∧
    (∃ sent : Nat, tcpSendLoop buf.length sends 0 = some sent ∧
      t = Int.ofNat sent ∧ sent ≤ buf.length ∧
      (sent = buf.length ∨ exitsHard sends = true)) ∧
    (∀ rs : List SendRes, ∀ off : Nat,
      tcpSendLoop buf.length (SendRes.err ErrnoK.eagain :: rs) off
        = tcpSendLoop buf.length rs off ∧
      tcpSendLoop buf.length (SendRes.err ErrnoK.eintr :: rs) off
        = tcpSendLoop buf.length rs off) := by
  have ht2 : (tcpSendLoop buf.length sends 0).map Int.ofNat = some t := by
    simpa only [bufferev_write, hp] using ht
  refine ⟨by simp [bufferev_write, hp], ?_, ?_⟩
  · obtain ⟨sent, hsent, hval⟩ := Option.map_eq_some'.mp ht2
    obtain ⟨-, hb, hcc⟩ :=
      tcpSendLoop_spec sends buf.length 0 sent (Nat.zero_le _) hv hsent
    exact ⟨sent, hsent, hval.symm, hb, hcc⟩
  · intro rs off
    exact ⟨by simp [tcpSendLoop], by simp [tcpSendLoop]⟩

/-- **C6** (witness): a 5-byte Tcp write on the concrete connection `pend0`
against the oracle "sent 3, would-block, sent 2, zero-length send": every
hypothesis holds and the call returns 5, the full payload. -/
theorem tcpWrite_sends_fully_witness :
    pend0.proto = NetworkProto.tcp ∧
    validSends [1, 2, 3, 4, 5].length 0
      [SendRes.ok 3, SendRes.err ErrnoK.eagain, SendRes.ok 2, SendRes.ok 0] = true ∧
    (bufferev_write pend0 [1, 2, 3, 4, 5]
      [SendRes.ok 3, SendRes.err ErrnoK.eagain, SendRes.ok 2, SendRes.ok 0]).2 = some 5 ∧
    ((bufferev_write pend0 [1, 2, 3, 4, 5]
        [SendRes.ok 3, SendRes.err ErrnoK.eagain, SendRes.ok 2, SendRes.ok 0]).1 = pend0 ∧
      (∃ sent : Nat,
        tcpSendLoop [1, 2, 3, 4, 5].length
          [SendRes.ok 3, SendRes.err ErrnoK.eagain, SendRes.ok 2, SendRes.ok 0] 0 = some sent ∧
        (5 : Int) = Int.ofNat sent ∧ sent ≤ [1, 2, 3, 4, 5].length ∧
        (sent = [1, 2, 3, 4, 5].length ∨
          exitsHard [SendRes.ok 3, SendRes.err ErrnoK.eagain, SendRes.ok 2, SendRes.ok 0] = true)) ∧
      (∀ rs : List SendRes, ∀ off : Nat,
        tcpSendLoop [1, 2, 3, 4, 5].length (SendRes.err ErrnoK.eagain :: rs) off
          = tcpSendLoop [1, 2, 3, 4, 5].length rs off ∧
        tcpSendLoop [1, 2, 3, 4, 5].length (SendRes.err ErrnoK.eintr :: rs) off
          = tcpSendLoop [1, 2, 3, 4, 5].length rs off)) :=
  ⟨by decide, by decide, by decide,
    tcpWrite_sends_fully_or_hard_error pend0 [1, 2, 3, 4, 5]
      [SendRes.ok 3, SendRes.err ErrnoK.eagain, SendRes.ok 2, SendRes.ok 0] 5
      (by decide) (by decide) (by decide)⟩

/-- **C7**.  On a Tls-protocol connection, `bufferev_write` performs no
socket I/O (its result does not depend on the `send` oracle and no descriptor
is touched): it appends the payload to `tx_queue`, growing it by exactly the
payload length, leaves the socket, `rx_queue`, `connected` flag, watch, timer
and event trace unchanged, and returns the number of bytes enqueued. -/
theorem tlsWrite_enqueues_only (be : Bufferev) (buf : List Nat)
    (sends : List SendRes) (hp : be.proto = NetworkProto.tls) :
    bufferev_write be buf sends
      = ({ be with txQueue := be.txQueue ++ buf }, some (Int.ofNat buf.length)) ∧
    (bufferev_write be buf sends).1.txQueue.length = be.txQueue.length + buf.length ∧
    (bufferev_write be buf sends).1.sock = be.sock ∧
    (bufferev_write be buf sends).1.rxQueue = be.rxQueue ∧
    (bufferev_write be buf sends).1.connected = be.connected ∧
    (bufferev_write be buf sends).1.watchActive = be.watchActive ∧
    (bufferev_write be buf sends).1.timerArmed = be.timerArmed ∧
    (bufferev_write be buf sends).1.events = be.events ∧
    (bufferev_write be buf sends).1.closedFds = be.closedFds ∧
    (∀ other : List SendRes, bufferev_write be buf other = bufferev_write be buf sends) := by
  simp [bufferev_write, buffer_queue_add, hp]

/-- **C7** (witness): a Tls-mode write of a 100-byte payload on a concrete
connection returns 100 and grows `tx_queue` by exactly 100. -/
theorem tlsWrite_enqueues_only_witness :
    bufferev_write { pend0 with proto := NetworkProto.tls } (List.replicate 100 7) []
      = ({ { pend0 with proto := NetworkProto.tls } with
            txQueue := { pend0 with proto := NetworkProto.tls }.txQueue ++ List.replicate 100 7 },
          some (Int.ofNat (List.replicate 100 7).length)) ∧
    (bufferev_write { pend0 with proto := NetworkProto.tls } (List.replicate 100 7) []).1.txQueue.length
      = { pend0 with proto := NetworkProto.tls }.txQueue.length + (List.replicate 100 7).length ∧
    (bufferev_write { pend0 with proto := NetworkProto.tls } (List.replicate 100 7) []).1.sock
      = { pend0 with proto := NetworkProto.tls }.sock ∧
    (bufferev_write { pend0 with proto := NetworkProto.tls } (List.replicate 100 7) []).1.rxQueue
      = { pend0 with proto := NetworkProto.tls }.rxQueue ∧
    (bufferev_write { pend0 with proto := NetworkProto.tls } (List.replicate 100 7) []).1.connected
      = { pend0 with proto := NetworkProto.tls }.connected ∧
    (bufferev_write { pend0 with proto := NetworkProto.tls } (List.replicate 100 7) []).1.watchActive
      = { pend0 with proto := NetworkProto.tls }.watchActive ∧
    (bufferev_write { pend0 with proto := NetworkProto.tls } (List.replicate 100 7) []).1.timerArmed
      = { pend0 with proto := NetworkProto.tls }.timerArmed ∧
    (bufferev_write { pend0 with proto := NetworkProto.tls } (List.replicate 100 7) []).1.events
      = { pend0 with proto := NetworkProto.tls }.events ∧
    (bufferev_write { pend0 with proto := NetworkProto.tls } (List.replicate 100 7) []).1.closedFds
      = { pend0 with proto := NetworkProto.tls }.closedFds ∧
    (∀ other : List SendRes,
      bufferev_write { pend0 with proto := NetworkProto.tls } (List.replicate 100 7) other
        = bufferev_write { pend0 with proto := NetworkProto.tls } (List.replicate 100 7) []) :=
  tlsWrite_enqueues_only { pend0 with proto := NetworkProto.tls } (List.replicate 100 7) [] rfl

/-- **C8**.  One read-readiness invocation on a connection with both
callbacks installed: `read_cb` runs exactly once per chunk the `recv` loop
produced (not once per readiness event), every chunk lands on `rx_queue` in
order, and exactly when the invocation received no bytes at all the read
watch is unregistered and a single Eof event is delivered; otherwise the
watch and the event trace are untouched. -/
theorem onRead_per_chunk_and_eof (s : Bufferev) (chunks : List (List Nat))
    (hne : ∀ c ∈ chunks, c ≠ [] ∧ c.length ≤ 4096)
    (hr : s.readCbSet = true) (he : s.eventCbSet = true) :
    (on_read s chunks).readCbCalls = s.readCbCalls + chunks.length ∧
    (on_read s chunks).rxQueue = s.rxQueue ++ chunks.flatten ∧
    (chunks = [] →
      (on_read s chunks).watchActive = false ∧
      (on_read s chunks).events = s.events ++ [evEof]) ∧
    (chunks ≠ [] →
      (on_read s chunks).watchActive = s.watchActive ∧
      (on_read s chunks).events = s.events) := by
  obtain ⟨hle, hlw, -, -, -, -, -, -, -, hlrx⟩ := on_read_loop_frame chunks s
  obtain ⟨hcc, -⟩ := on_read_loop_counts chunks s hr
  by_cases h0 : chunks = []
  · subst h0
    simp [on_read, on_read_loop, deliverEvent, he]
  · have hsum : ¬((chunks.map List.length).sum = 0) := by
      cases chunks with
      | nil => exact absurd rfl h0
      | cons c cs =>
          have hc := (hne c (List.mem_cons_self c cs)).1
          have hcl : 0 < c.length := List.length_pos.mpr hc
          simp only [List.map_cons, List.sum_cons]
          omega
    have heq : on_read s chunks = on_read_loop s chunks := by
      simp only [on_read, if_neg hsum]
    rw [heq]
    exact ⟨hcc, hlrx, fun h => absurd h h0, fun _ => ⟨hlw, hle⟩⟩

/-- **C8** (witness): a readiness invocation on the concrete connection
`pend0` delivering the two chunks [1,2] and [3]: two `read_cb` invocations,
both chunks appended, no Eof. -/
theorem onRead_per_chunk_and_eof_witness :
    (on_read pend0 [[1, 2], [3]]).readCbCalls = pend0.readCbCalls + [[1, 2], [3]].length ∧
    (on_read pend0 [[1, 2], [3]]).rxQueue = pend0.rxQueue ++ [[1, 2], [3]].flatten ∧
    ([[1, 2], [3]] = ([] : List (List Nat)) →
      (on_read pend0 [[1, 2], [3]]).watchActive = false ∧
      (on_read pend0 [[1, 2], [3]]).events = pend0.events ++ [evEof]) ∧
    ([[1, 2], [3]] ≠ ([] : List (List Nat)) →
      (on_read pend0 [[1, 2], [3]]).watchActive = pend0.watchActive ∧
      (on_read pend0 [[1, 2], [3]]).events = pend0.events) :=
  onRead_per_chunk_and_eof pend0 [[1, 2], [3]] (by decide) (by decide) (by decide)

/-- **C10**.  Within one read-readiness invocation (with a fresh snapshot
log), each chunk is appended to `rx_queue` before the corresponding `read_cb`
invocation: the queue the i-th callback observes is the original queue
followed by the first i+1 chunks, so the i-th chunk is already a suffix of
it, `bufferev_bytes_available` already counts it, and `bufferev_peek` over
the whole queue already returns it. -/
theorem onRead_appends_before_callback (s : Bufferev) (chunks : List (List Nat))
    (i : Nat) (hne : ∀ c ∈ chunks, c ≠ []) (hr : s.readCbSet = true)
    (hsnap : s.readCbSnapshots = []) (hi : i < chunks.length) :
    (on_read s chunks).readCbSnapshots.getD i []
      = s.rxQueue ++ (chunks.take (i + 1)).flatten ∧
    List.IsSuffix (chunks.getD i []) ((on_read s chunks).readCbSnapshots.getD i []) ∧
    bufferev_bytes_available
        { s with rxQueue := (on_read s chunks).readCbSnapshots.getD i [] }
      = s.rxQueue.length + ((chunks.take (i + 1)).flatten).length ∧
    bufferev_peek { s with rxQueue := (on_read s chunks).readCbSnapshots.getD i [] }
        (s.rxQueue.length + ((chunks.take (i + 1)).flatten).length)
      = s.rxQueue ++ (chunks.take (i + 1)).flatten := by
  have hsn : (on_read s chunks).readCbSnapshots
      = (on_read_loop s chunks).readCbSnapshots := by
    simp only [on_read, deliverEvent]
    split_ifs <;> rfl
  have hgd : (on_read s chunks).readCbSnapshots.getD i []
      = s.rxQueue ++ (chunks.take (i + 1)).flatten := by
    rw [hsn, (on_read_loop_counts chunks s hr).2, hsnap, List.nil_append]
    rw [List.getD_eq_getElem?_getD, List.getElem?_map, List.getElem?_range hi]
    rfl
  have hsplit : (chunks.take (i + 1)).flatten
      = (chunks.take i).flatten ++ chunks.getD i [] := by
    rw [List.take_succ, List.flatten_append]
    congr 1
    rw [List.getElem?_eq_getElem hi]
    simp [List.getD_eq_getElem?_getD, List.getElem?_eq_getElem hi]
  refine ⟨hgd, ?_, ?_, ?_⟩
  · rw [hgd, hsplit, ← List.append_assoc]
    exact ⟨s.rxQueue ++ (chunks.take i).flatten, rfl⟩
  · rw [hgd]
    simp [bufferev_bytes_available, buffer_queue_len]
  · rw [hgd]
    show (s.rxQueue ++ (chunks.take (i + 1)).flatten).take
        (s.rxQueue.length + ((chunks.take (i + 1)).flatten).length)
      = s.rxQueue ++ (chunks.take (i + 1)).flatten
    rw [← List.length_append, List.take_length]

/-- **C10** (witness): in the concrete two-chunk invocation on `pend0`, the
queue observed by the second `read_cb` call already ends with the second
chunk and is fully visible to `bufferev_peek`. -/
theorem onRead_appends_before_callback_witness :
    (on_read pend0 [[1, 2], [3]]).readCbSnapshots.getD 1 []
      = pend0.rxQueue ++ ([[1, 2], [3]].take 2).flatten ∧
    List.IsSuffix ([[1, 2], [3]].getD 1 [])
      ((on_read pend0 [[1, 2], [3]]).readCbSnapshots.getD 1 []) ∧
    bufferev_bytes_available
        { pend0 with rxQueue := (on_read pend0 [[1, 2], [3]]).readCbSnapshots.getD 1 [] }
      = pend0.rxQueue.length + (([[1, 2], [3]].take 2).flatten).length ∧
    bufferev_peek
        { pend0 with rxQueue := (on_read pend0 [[1, 2], [3]]).readCbSnapshots.getD 1 [] }
        (pend0.rxQueue.length + (([[1, 2], [3]].take 2).flatten).length)
      = pend0.rxQueue ++ ([[1, 2], [3]].take 2).flatten :=
  onRead_appends_before_callback pend0 [[1, 2], [3]] 1
    (by decide) (by decide) (by decide) (by decide)

/-- **C9** (code_bug evaluation).  The endpoint getters do return NULL when
the underlying query fails, but on success they do not return the socket's
address: `parse_sockaddr` casts `&addr` (the address of its pointer
parameter) instead of `addr`, so host and port are decoded from the bytes of
the pointer variable.  For the local endpoint 127.0.0.1:8080 and a pointer
value 0x00007ffc9a3b5c70 the call returns host "252.127.0.0" and port 15258;
the result coincides for a completely different sockaddr (10.0.0.5:9999)
because the sockaddr contents are never read past the family tag. -/
theorem getAddr_decodes_pointer_bytes :
    bufferev_get_local_addr (some addr9) stack9
      = some ("252.127.0.0", some 15258) ∧
    bufferev_get_peer_addr (some addr9) stack9
      = some ("252.127.0.0", some 15258) ∧
    parse_sockaddr_spec addr9 = ("127.0.0.1", some 8080) ∧
    parse_sockaddr addr9 stack9 ≠ parse_sockaddr_spec addr9 ∧
    parse_sockaddr (SockaddrSt.v4 9999 [10, 0, 0, 5]) stack9
      = parse_sockaddr addr9 stack9 ∧
    bufferev_get_local_addr none stack9 = none ∧
    bufferev_get_peer_addr none stack9 = none := by
  refine ⟨rfl, rfl, rfl, ?_, rfl, rfl, rfl⟩
  decide

end Mettle
